import Mathlib

/-!
Verification of `github_activity.py` (GitHub User Activity CLI).

The Python source is shallowly embedded below: every function keeps its
source name (`filter_events`, `parse_event_date`, `format_event`,
`get_time_ago`, `display_activity`, `parse_arguments`, `main`).  Loosely
typed Python dictionaries become structures with `Option` fields;
`dict.get` with a default becomes `Option.getD`; Python truthiness tests
on filter values are modelled explicitly (absent key or empty string or
zero integer are falsy); code that raises an uncaught exception is
modelled as returning `none`.
-/

/-- Python `str.replace` on character lists (all non-overlapping
occurrences, scanning left to right).  `fuel` bounds the recursion; it is
always instantiated with the length of the scanned list, which suffices
because every step consumes at least one character when the pattern is
non-empty. -/
def replChars (fuel : Nat) (l pat rep : List Char) : List Char :=
  match fuel, l with
  | 0, l => l
  | _ + 1, [] => []
  | fuel + 1, c :: rest =>
    if pat ≠ [] ∧ pat.isPrefixOf (c :: rest) then
      rep ++ replChars fuel (List.drop pat.length (c :: rest)) pat rep
    else
      c :: replChars fuel rest pat rep

/-- Python `s.replace(pat, rep)` for a non-empty pattern. -/
def strReplace (s pat rep : String) : String :=
  String.mk (replChars s.data.length s.data pat.data rep.data)

/-- Python `pat in hay` (contiguous substring test). -/
def containsSub (hay pat : String) : Bool :=
  hay.data.tails.any (fun t => pat.data.isPrefixOf t)

/-- Python `str.capitalize`: first character upper-cased, all remaining
characters lower-cased. -/
def pyCapitalize (s : String) : String :=
  match s.data with
  | [] => ""
  | c :: rest => String.mk (c.toUpper :: rest.map Char.toLower)

/-- Python slice `xs[:n]` for an arbitrary integer bound: a nonnegative
bound takes the first `n` elements; a negative bound drops the last `|n|`
elements, i.e. takes the first `max 0 (len + n)`. -/
def pySliceTo (xs : List α) (n : Int) : List α :=
  if 0 ≤ n then xs.take n.toNat else xs.take (xs.length - (-n).toNat)

/-- Numeric value of a decimal digit character. -/
def digitVal (c : Char) : Nat := c.toNat - 48

/-- Value of a list of decimal digit characters. -/
def digitsVal (l : List Char) : Nat :=
  l.foldl (fun acc c => acc * 10 + digitVal c) 0

/-- Strip leading and trailing whitespace, as `int(s)` does before
parsing. -/
def trimWs (l : List Char) : List Char :=
  ((l.dropWhile Char.isWhitespace).reverse.dropWhile Char.isWhitespace).reverse

/-- After an initial digit, `int()` accepts further digits with single
underscores allowed only *between* digits. -/
def digitsUnd : List Char → Bool
  | [] => true
  | '_' :: c :: rest => c.isDigit && digitsUnd rest
  | c :: rest => c.isDigit && digitsUnd rest

/-- An `int()` digit body: at least one digit, underscores only between
digits. -/
def pyIntBody (l : List Char) : Bool :=
  match l with
  | [] => false
  | c :: rest => c.isDigit && digitsUnd rest

/-- The numeric value of an `int()` digit body (underscores ignored). -/
def pyIntVal (l : List Char) : Nat := digitsVal (l.filter (fun c => c != '_'))

/-- Python `int(s)` on a string: surrounding whitespace stripped, an
optional sign, then decimal digits with single underscores permitted
between digits. -/
def pyParseInt (s : String) : Option Int :=
  match trimWs s.data with
  | '-' :: rest => if pyIntBody rest then some (-(pyIntVal rest : Int)) else none
  | '+' :: rest => if pyIntBody rest then some (pyIntVal rest : Int) else none
  | l => if pyIntBody l then some (pyIntVal l : Int) else none

/-- A `datetime.datetime` value: proleptic Gregorian calendar fields at
second precision (the code never produces sub-second values). -/
structure DateTime where
  year : Nat
  month : Nat
  day : Nat
  hour : Nat
  minute : Nat
  second : Nat
deriving DecidableEq, Repr

/-- `datetime.min`: 0001-01-01 00:00:00. -/
def dtMin : DateTime := ⟨1, 1, 1, 0, 0, 0⟩

/-- Python `datetime` comparison `a <= b`: lexicographic on the fields. -/
def dtLe (a b : DateTime) : Bool :=
  if a.year ≠ b.year then a.year < b.year
  else if a.month ≠ b.month then a.month < b.month
  else if a.day ≠ b.day then a.day < b.day
  else if a.hour ≠ b.hour then a.hour < b.hour
  else if a.minute ≠ b.minute then a.minute < b.minute
  else a.second ≤ b.second

/-- Python `datetime` comparison `a < b` (for the total order `dtLe`,
strictly-less is the negation of the reversed comparison). -/
def dtLt (a b : DateTime) : Bool := !(dtLe b a)

/-- Gregorian leap-year test. -/
def isLeap (y : Nat) : Bool :=
  (y % 4 == 0 && y % 100 != 0) || y % 400 == 0

/-- Days in a month of a given year. -/
def daysInMonth (y m : Nat) : Nat :=
  if m = 2 then (if isLeap y then 29 else 28)
  else if m = 4 ∨ m = 6 ∨ m = 9 ∨ m = 11 then 30
  else 31

/-- Days in all years strictly before year `y` (proleptic Gregorian). -/
def daysBeforeYear (y : Nat) : Nat :=
  365 * (y - 1) + (y - 1) / 4 - (y - 1) / 100 + (y - 1) / 400

/-- Days in the months of year `y` strictly before month `m`. -/
def daysBeforeMonth (y : Nat) : Nat → Nat
  | 0 => 0
  | 1 => 0
  | m + 1 => daysBeforeMonth y m + daysInMonth y m

/-- Proleptic Gregorian ordinal (day number) of a date, day 0 being
0001-01-01. -/
def toOrdinal (dt : DateTime) : Nat :=
  daysBeforeYear dt.year + daysBeforeMonth dt.year dt.month + (dt.day - 1)

/-- Seconds since 0001-01-01 00:00:00. -/
def toSeconds (dt : DateTime) : Nat :=
  86400 * toOrdinal dt + 3600 * dt.hour + 60 * dt.minute + dt.second

/-- `(a - b).total_seconds()` for two datetimes, as an integer (both
operands have second precision). -/
def diffSeconds (a b : DateTime) : Int :=
  (toSeconds a : Int) - (toSeconds b : Int)

/-- Split a character list into its maximal leading digit run and the
rest.  The numeric directives of `strptime` match only digits and every
literal separator in the formats used here is a non-digit, so a
successful match must assign each field exactly the digit run between
separators. -/
def spanDigits (l : List Char) : List Char × List Char :=
  (l.takeWhile Char.isDigit, l.dropWhile Char.isDigit)

/-- A 1-or-2-digit numeric `strptime` field whose value lies in
`lo..hi` — the shape CPython's directive regexes accept (e.g. `%m` is
`1[0-2]|0[1-9]|[1-9]`: one or two digits, value 1..12). -/
def fieldOk (run : List Char) (lo hi : Nat) : Bool :=
  (run.length == 1 || run.length == 2) &&
  decide (lo ≤ digitsVal run) && decide (digitsVal run ≤ hi)

/-- `datetime.strptime(s, "%Y-%m-%dT%H:%M:%SZ")`.  CPython compiles the
format to a case-insensitive regex: `%Y` is exactly four digits, each of
`%m`/`%d`/`%H`/`%M`/`%S` is one or two digits in its range (so
one-digit, non-zero-padded fields parse), the literal `T`/`Z` match
either case, and the whole string must be consumed.  The `datetime`
constructor then validates the day against the month and the year
against `MINYEAR`; any failure raises `ValueError`, modelled as `none`.
(Seconds 60/61 pass the regex but fail the constructor, so they also
end at `none`.) -/
def parseTimestamp (s : String) : Option DateTime :=
  let (yrun, r1) := spanDigits s.data
  match r1 with
  | '-' :: r1b =>
    let (mrun, r2) := spanDigits r1b
    match r2 with
    | '-' :: r2b =>
      let (drun, r3) := spanDigits r2b
      match r3 with
      | ct :: r3b =>
        let (hrun, r4) := spanDigits r3b
        match r4 with
        | ':' :: r4b =>
          let (mirun, r5) := spanDigits r4b
          match r5 with
          | ':' :: r5b =>
            let (srun, r6) := spanDigits r5b
            match r6 with
            | [cz] =>
              if (ct = 'T' ∨ ct = 't') ∧ (cz = 'Z' ∨ cz = 'z') ∧
                 yrun.length = 4 ∧ 1 ≤ digitsVal yrun ∧
                 fieldOk mrun 1 12 = true ∧ fieldOk drun 1 31 = true ∧
                 fieldOk hrun 0 23 = true ∧ fieldOk mirun 0 59 = true ∧
                 fieldOk srun 0 59 = true ∧
                 digitsVal drun ≤ daysInMonth (digitsVal yrun) (digitsVal mrun) then
                some ⟨digitsVal yrun, digitsVal mrun, digitsVal drun,
                      digitsVal hrun, digitsVal mirun, digitsVal srun⟩
              else none
            | _ => none
          | _ => none
        | _ => none
      | _ => none
    | _ => none
  | _ => none

/-- `datetime.strptime(s, "%Y-%m-%d")`, with the same CPython leniency
(one-digit month and day parse), giving a midnight datetime. -/
def parseDateYMD (s : String) : Option DateTime :=
  let (yrun, r1) := spanDigits s.data
  match r1 with
  | '-' :: r1b =>
    let (mrun, r2) := spanDigits r1b
    match r2 with
    | '-' :: r2b =>
      let (drun, r3) := spanDigits r2b
      match r3 with
      | [] =>
        if yrun.length = 4 ∧ 1 ≤ digitsVal yrun ∧
           fieldOk mrun 1 12 = true ∧ fieldOk drun 1 31 = true ∧
           digitsVal drun ≤ daysInMonth (digitsVal yrun) (digitsVal mrun) then
          some ⟨digitsVal yrun, digitsVal mrun, digitsVal drun, 0, 0, 0⟩
        else none
      | _ => none
    | _ => none
  | _ => none

/-- The `"repo"` sub-dictionary of an event: only its `"name"` key is
ever read. -/
structure RepoInfo where
  name : Option String
deriving DecidableEq, Repr

/-- The `"payload"` sub-dictionary of an event: only `"commits"`,
`"ref_type"` and `"action"` are ever read.  Commit objects are opaque
(only their count is used), so they are modelled as `Unit`. -/
structure Payload where
  commits : Option (List Unit)
  ref_type : Option String
  action : Option String
deriving DecidableEq, Repr

/-- One GitHub event record: the loosely-typed JSON object, restricted
to the keys the program reads, each possibly absent. -/
structure EventRecord where
  type : Option String
  repo : Option RepoInfo
  payload : Option Payload
  created_at : Option String
deriving DecidableEq, Repr

/-- The `filters` dictionary built by `parse_arguments`: every key
optional. -/
structure Filters where
  event_type : Option String
  repo : Option String
  date_from : Option DateTime
  limit : Option Int
deriving DecidableEq, Repr

/-- The empty `filters` dictionary. -/
def noFilters : Filters := ⟨none, none, none, none⟩

/-- `parse_event_date(event)`: `event.get('created_at', '')` parsed with
the fixed timestamp format, `datetime.min` on failure. -/
def parse_event_date (event : EventRecord) : DateTime :=
  match parseTimestamp (event.created_at.getD "") with
  | some dt => dt
  | none => dtMin

/-- `e.get('repo', {}).get('name', '')` (the filter's accessor, empty
default). -/
def repoNameOrEmpty (e : EventRecord) : String :=
  ((e.repo.getD ⟨none⟩).name.getD "")

/-- The value-based part of `filter_events` (lines 94-115): the three
conditional list comprehensions for event type, repository substring and
date, in source order.  Each is guarded by Python truthiness of the
corresponding dictionary value (`None` and `''` are falsy; a `datetime`
is always truthy). -/
def value_filtered (events : List EventRecord) (filters : Filters) : List EventRecord :=
  let filtered := events
  let filtered :=
    match filters.event_type with
    | some t => if t = "" then filtered else filtered.filter (fun e => e.type == some t)
    | none => filtered
  let filtered :=
    match filters.repo with
    | some r =>
      if r = "" then filtered
      else filtered.filter (fun e => containsSub (repoNameOrEmpty e).toLower r.toLower)
    | none => filtered
  let filtered :=
    match filters.date_from with
    | some d => filtered.filter (fun e => dtLe d (parse_event_date e))
    | none => filtered
  filtered

/-- `filter_events(events, filters)`: the value-based filters followed by
the limit truncation `filtered[:filters['limit']]`, itself guarded by
truthiness of the limit (so a limit of `0` is skipped). -/
def filter_events (events : List EventRecord) (filters : Filters) : List EventRecord :=
  let filtered := value_filtered events filters
  match filters.limit with
  | some n => if n = 0 then filtered else pySliceTo filtered n
  | none => filtered

/-- `get_time_ago`'s tier logic as a function of
`diff.total_seconds()`.  (In the source, `now` is read from the clock
and `seconds = (now - date).total_seconds()`; both datetimes have second
precision, so `seconds` is an integer.)  `int(x)` on a nonnegative
quotient is the floor, written here with the branch guards guaranteeing
a nonnegative dividend. -/
def get_time_ago (seconds : Int) : String :=
  if seconds < 60 then "just now"
  else if seconds < 3600 then
    let minutes := (seconds / 60).toNat
    toString minutes ++ " minute" ++ (if minutes ≠ 1 then "s" else "") ++ " ago"
  else if seconds < 86400 then
    let hours := (seconds / 3600).toNat
    toString hours ++ " hour" ++ (if hours ≠ 1 then "s" else "") ++ " ago"
  else if seconds < 2592000 then
    let days := (seconds / 86400).toNat
    toString days ++ " day" ++ (if days ≠ 1 then "s" else "") ++ " ago"
  else
    let months := (seconds / 2592000).toNat
    toString months ++ " month" ++ (if months ≠ 1 then "s" else "") ++ " ago"

/-- `e.get('payload', {})`. -/
def payloadOf (e : EventRecord) : Payload := e.payload.getD ⟨none, none, none⟩

/-- The category dispatch of `format_event` (lines 153-201): produces
the description string, or `none` for the uncaught `AttributeError` the
final `else` raises when the record has no `type` key (Python evaluates
`event.get('type')` to `None` and then calls `.replace` on it). -/
def event_description (event : EventRecord) : Option String :=
  let event_type := event.type
  let repo_name := (event.repo.getD ⟨none⟩).name.getD "unknown repo"
  if event_type == some "PushEvent" then
    let commits := (payloadOf event).commits.getD []
    some ("Pushed " ++ toString commits.length ++ " commit(s) to " ++ repo_name)
  else if event_type == some "CreateEvent" then
    some ("Created " ++ (payloadOf event).ref_type.getD "repository" ++ " in " ++ repo_name)
  else if event_type == some "DeleteEvent" then
    some ("Deleted " ++ (payloadOf event).ref_type.getD "branch" ++ " in " ++ repo_name)
  else if event_type == some "IssuesEvent" then
    some (pyCapitalize ((payloadOf event).action.getD "updated") ++ " an issue in " ++ repo_name)
  else if event_type == some "IssueCommentEvent" then
    some ("Commented on an issue in " ++ repo_name)
  else if event_type == some "WatchEvent" then
    some ("Starred " ++ repo_name)
  else if event_type == some "ForkEvent" then
    some ("Forked " ++ repo_name)
  else if event_type == some "PullRequestEvent" then
    some (pyCapitalize ((payloadOf event).action.getD "updated") ++ " a pull request in " ++ repo_name)
  else if event_type == some "PullRequestReviewEvent" then
    some ("Reviewed a pull request in " ++ repo_name)
  else if event_type == some "PullRequestReviewCommentEvent" then
    some ("Commented on a pull request in " ++ repo_name)
  else if event_type == some "ReleaseEvent" then
    some (pyCapitalize ((payloadOf event).action.getD "published") ++ " a release in " ++ repo_name)
  else if event_type == some "MemberEvent" then
    some ("Added a collaborator to " ++ repo_name)
  else
    match event_type with
    | some t => some (strReplace t "Event" "" ++ " in " ++ repo_name)
    | none => none

/-- `format_event(event, show_date)` with the internally-read clock
value `now` made an explicit argument: the category description (above),
then `" (<time_ago>)"` appended when `show_date` is set.  A `none`
description (uncaught exception) propagates. -/
def format_event (event : EventRecord) (show_date : Bool) (now : DateTime) : Option String :=
  (event_description event).map (fun description =>
    if show_date then
      description ++ " (" ++ get_time_ago (diffSeconds now (parse_event_date event)) ++ ")"
    else description)

/-- The display loop body of `display_activity` (lines 273-275): one
`"- <formatted>"` line per event; a formatting exception aborts the
whole loop (`none`). -/
def print_loop (show_dates : Bool) (now : DateTime) : List EventRecord → Option (List String)
  | [] => some []
  | e :: rest =>
    match format_event e show_dates now with
    | none => none
    | some s => (print_loop show_dates now rest).map (fun ls => ("- " ++ s) :: ls)

/-- Lines 270-275 of `display_activity`:
`show_dates = filters.get('date_from') is not None`, then the loop. -/
def event_lines (events : List EventRecord) (filters : Filters) (now : DateTime) :
    Option (List String) :=
  print_loop filters.date_from.isSome now events

/-- `display_activity(events, filters)`: the empty case prints the
no-activity message; otherwise the per-event lines are printed.  (The
count/filter-summary header, which cannot fail and which no claim
concerns, is not part of the returned lines.) -/
def display_activity (events : List EventRecord) (filters : Filters) (now : DateTime) :
    Option (List String) :=
  if events = [] then some ["No activity found matching the filters."]
  else event_lines events filters now

/-- `EVENT_TYPE_MAP`: friendly alias → canonical GitHub event type. -/
def EVENT_TYPE_MAP : List (String × String) :=
  [("push", "PushEvent"),
   ("create", "CreateEvent"),
   ("delete", "DeleteEvent"),
   ("issues", "IssuesEvent"),
   ("issue_comment", "IssueCommentEvent"),
   ("star", "WatchEvent"),
   ("watch", "WatchEvent"),
   ("fork", "ForkEvent"),
   ("pr", "PullRequestEvent"),
   ("pull_request", "PullRequestEvent"),
   ("pr_review", "PullRequestReviewEvent"),
   ("pr_comment", "PullRequestReviewCommentEvent"),
   ("release", "ReleaseEvent"),
   ("member", "MemberEvent")]

/-- `datetime.utcnow().replace(hour=0, minute=0, second=0, microsecond=0)`. -/
def startOfDay (now : DateTime) : DateTime :=
  ⟨now.year, now.month, now.day, 0, 0, 0⟩

/-- One calendar day earlier (valid-date arithmetic). -/
def decDay (dt : DateTime) : DateTime :=
  if 1 < dt.day then ⟨dt.year, dt.month, dt.day - 1, dt.hour, dt.minute, dt.second⟩
  else if 1 < dt.month then
    ⟨dt.year, dt.month - 1, daysInMonth dt.year (dt.month - 1), dt.hour, dt.minute, dt.second⟩
  else ⟨dt.year - 1, 12, 31, dt.hour, dt.minute, dt.second⟩

/-- `now - timedelta(days=n)`. -/
def subDays : Nat → DateTime → DateTime
  | 0, dt => dt
  | n + 1, dt => subDays n (decDay dt)

/-- The flag loop of `parse_arguments` (lines 309-377), recursing over
the remaining argument tokens.  `sys.exit(1)` on a missing flag value or
an unparsable `--limit`/`--date` value is modelled as `Except.error`;
warnings for unknown flags or unknown type aliases skip the token and
continue. -/
def parse_flags (now : DateTime) : List String → Filters → Except Unit Filters
  | [], filters => .ok filters
  | arg :: rest, filters =>
    if arg = "--type" ∨ arg = "-t" then
      match rest with
      | [] => .error ()
      | v :: rest2 =>
        match EVENT_TYPE_MAP.lookup v.toLower with
        | some t => parse_flags now rest2 { filters with event_type := some t }
        | none => parse_flags now rest2 filters
    else if arg = "--repo" ∨ arg = "-r" then
      match rest with
      | [] => .error ()
      | v :: rest2 => parse_flags now rest2 { filters with repo := some v }
    else if arg = "--limit" ∨ arg = "-l" then
      match rest with
      | [] => .error ()
      | v :: rest2 =>
        match pyParseInt v with
        | some n => parse_flags now rest2 { filters with limit := some n }
        | none => .error ()
    else if arg = "--date" ∨ arg = "-d" then
      match rest with
      | [] => .error ()
      | v :: rest2 =>
        match parseDateYMD v with
        | some d => parse_flags now rest2 { filters with date_from := some d }
        | none => .error ()
    else if arg = "--today" then
      parse_flags now rest { filters with date_from := some (startOfDay now) }
    else if arg = "--week" then
      parse_flags now rest { filters with date_from := some (subDays 7 now) }
    else
      parse_flags now rest filters

/-- `parse_arguments()`: no arguments gives `(None, {})`; otherwise the
first token is the username and the remainder is scanned for flags. -/
def parse_arguments (argv : List String) (now : DateTime) :
    Except Unit (Option (String × Filters)) :=
  match argv with
  | [] => .ok none
  | username :: rest => (parse_flags now rest noFilters).map (fun f => some (username, f))

/-- The possible outcomes of `fetch_user_activity`'s single network
call, injected into `main` (the network itself is outside the model).
Every non-success outcome makes `fetch_user_activity` call
`sys.exit(1)`. -/
inductive FetchOutcome where
  | success (events : List EventRecord)
  | notFound
  | httpError (code : Nat)
  | connectionError
  | invalidJson
deriving DecidableEq

/-- `main()` (the name `main` is reserved in Lean for an entry point, hence `mainExit`): returns the process exit code.  `sys.exit(1)` paths give
`1`; a display that raises an uncaught exception also terminates the
process with exit code `1`; a completed run exits `0`. -/
def mainExit (argv : List String) (fetch : FetchOutcome) (now : DateTime) : Nat :=
  match parse_arguments argv now with
  | .error _ => 1
  | .ok none => 1
  | .ok (some (_, filters)) =>
    match fetch with
    | .success events =>
      match display_activity (filter_events events filters) filters now with
      | some _ => 0
      | none => 1
    | _ => 1

/-- The event-type conjunct of the record predicate that
`value_filtered` applies: vacuous when the filter value is absent
(`None`) or the empty string (both falsy in Python), otherwise exact
case-sensitive equality with the record's `type`. -/
def catOK (filters : Filters) (e : EventRecord) : Bool :=
  match filters.event_type with
  | none => true
  | some t => if t = "" then true else e.type == some t

/-- The repository conjunct: vacuous when absent or empty, otherwise
case-insensitive substring containment in the record's repository name
(absent name defaulting to the empty string). -/
def repoOK (filters : Filters) (e : EventRecord) : Bool :=
  match filters.repo with
  | none => true
  | some r => if r = "" then true else containsSub (repoNameOrEmpty e).toLower r.toLower

/-- The date conjunct: vacuous when absent, otherwise the record's
parsed timestamp is ≥ the bound. -/
def dateOK (filters : Filters) (e : EventRecord) : Bool :=
  match filters.date_from with
  | none => true
  | some d => dtLe d (parse_event_date e)

/-- The conjunctive record predicate of the value-based filters. -/
def survives (filters : Filters) (e : EventRecord) : Bool :=
  catOK filters e && repoOK filters e && dateOK filters e

/-- The record predicate exactly as claim C5 words it: a record
satisfies every *present* constraint, with no exception for
present-but-empty strings. -/
def survivesSpec (filters : Filters) (e : EventRecord) : Bool :=
  (match filters.event_type with
   | none => true
   | some t => e.type == some t) &&
  (match filters.repo with
   | none => true
   | some r => containsSub (repoNameOrEmpty e).toLower r.toLower) &&
  dateOK filters e

theorem value_filtered_eq_filter (E : List EventRecord) (F : Filters) :
    value_filtered E F = E.filter (survives F) := by
  obtain ⟨et, r, df, lim⟩ := F
  cases et <;> cases r <;> cases df <;> simp only [value_filtered] <;> (try split_ifs) <;>
    (try simp only [List.filter_filter]) <;>
    first
      | (symm; rw [List.filter_eq_self]; intro a ha;
         simp [survives, catOK, repoOK, dateOK, *])
      | (apply List.filter_congr; intro a ha;
         simp [survives, catOK, repoOK, dateOK, Bool.and_comm, Bool.and_left_comm,
               Bool.and_assoc, *])

/-- The truncation bound that `pySliceTo` takes. -/
def sliceBound (len : Nat) (n : Int) : Nat :=
  if 0 ≤ n then n.toNat else len - (-n).toNat

theorem pySliceTo_eq_take (xs : List α) (n : Int) :
    pySliceTo xs n = xs.take (sliceBound xs.length n) := by
  unfold pySliceTo sliceBound
  split <;> simp_all

theorem filter_events_sublist (E : List EventRecord) (F : Filters) :
    (filter_events E F).Sublist E := by
  have hv : (value_filtered E F).Sublist E := by
    rw [value_filtered_eq_filter]; exact List.filter_sublist E
  cases hl : F.limit with
  | none => simpa only [filter_events, hl] using hv
  | some n =>
    by_cases h0 : n = 0
    · simpa only [filter_events, hl, h0, if_pos] using hv
    · simp only [filter_events, hl, if_neg h0, pySliceTo_eq_take]
      exact (List.take_sublist _ _).trans hv

theorem mem_filter_events (E : List EventRecord) (F : Filters) (e : EventRecord)
    (h : e ∈ filter_events E F) : e ∈ E ∧ survives F e = true := by
  have hmem : e ∈ value_filtered E F := by
    cases hl : F.limit with
    | none => simpa only [filter_events, hl] using h
    | some n =>
      by_cases h0 : n = 0
      · simpa only [filter_events, hl, h0, if_pos] using h
      · simp only [filter_events, hl, if_neg h0, pySliceTo_eq_take] at h
        exact List.mem_of_mem_take h
  rw [value_filtered_eq_filter] at hmem
  exact ⟨(List.mem_filter.mp hmem).1, (List.mem_filter.mp hmem).2⟩

/-- A filter specification whose only present field is `limit`. -/
def limitOnly (n : Int) : Filters := ⟨none, none, none, some n⟩

/-- Concrete sample record: a push of three commits. -/
def rPush : EventRecord :=
  ⟨some "PushEvent", some ⟨some "octo/repo"⟩, some ⟨some [(), (), ()], none, none⟩,
   some "2024-01-15T10:30:00Z"⟩

/-- Concrete sample record: a star. -/
def rWatch : EventRecord :=
  ⟨some "WatchEvent", some ⟨some "octo/repo"⟩, none, some "2024-01-15T10:31:00Z"⟩

/-- Concrete sample record: an unrecognized category with no occurrence
of `Event` other than the trailing one. -/
def rFoo : EventRecord := ⟨some "FooEvent", some ⟨some "x"⟩, none, none⟩

/-- Concrete sample record: an unrecognized category with an embedded,
non-trailing occurrence of `Event`. -/
def rOdd : EventRecord := ⟨some "MyEventThing", some ⟨some "x"⟩, none, none⟩

/-- Concrete sample record with no `type` key. -/
def rNoType : EventRecord := ⟨none, some ⟨some "octo/repo"⟩, none, none⟩

/-- Concrete sample record whose `created_at` does not parse. -/
def rBadDate : EventRecord := ⟨some "WatchEvent", some ⟨some "octo/repo"⟩, none, some "not-a-date"⟩

/-- Concrete sample record whose `created_at` is *not* of the exact
zero-padded form (one-digit month) but does parse under CPython
`strptime`. -/
def rLenientDate : EventRecord :=
  ⟨some "WatchEvent", some ⟨some "octo/repo"⟩, none, some "2024-1-15T10:30:00Z"⟩

/-- C1 counterexample: with `maxResults = 0` the claim demands the empty
prefix (`min 0 |E|` elements), but a zero limit is falsy in Python, the
truncation branch is skipped, and the whole one-element sequence comes
back. -/
theorem claim1_counterexample :
    filter_events [rPush] (limitOnly 0) = [rPush] ∧ [rPush] ≠ ([] : List EventRecord) := by
  constructor
  · rfl
  · decide

/-- C1 (amended): applying only `maxResults = N` to `E` yields the
prefix of length `min(N, |E|)` when `N ≥ 1`; `N = 0` is falsy, the
truncation is skipped, and the whole sequence is returned; a negative
`N` is a Python slice `E[:N]`, the prefix with the last `min(|N|, |E|)`
elements dropped.  Order is preserved in every case (the result is a
`take` of `E`). -/
theorem value_filtered_none (E : List EventRecord) (lim : Option Int) :
    value_filtered E ⟨none, none, none, lim⟩ = E := by
  simp [value_filtered]

theorem claim1_amended (E : List EventRecord) (N : Int) :
    (1 ≤ N → filter_events E (limitOnly N) = E.take N.toNat) ∧
    (N = 0 → filter_events E (limitOnly N) = E) ∧
    (N < 0 → filter_events E (limitOnly N) = E.take (E.length - (-N).toNat)) := by
  refine ⟨?_, ?_, ?_⟩
  · intro h1
    simp only [filter_events, limitOnly, if_neg (by omega : ¬ N = 0), pySliceTo_eq_take,
      sliceBound, if_pos (by omega : (0:Int) ≤ N), value_filtered_none]
  · intro h0
    simp [filter_events, limitOnly, h0, value_filtered_none]
  · intro hneg
    simp only [filter_events, limitOnly, if_neg (by omega : ¬ N = 0), pySliceTo_eq_take,
      sliceBound, if_neg (by omega : ¬ (0:Int) ≤ N), value_filtered_none]

/-- Witness for C1 (amended) at a two-element sequence and the three
limit shapes 1, 0, -1. -/
theorem claim1_witness :
    filter_events [rPush, rWatch] (limitOnly 1) = [rPush] ∧
    filter_events [rPush, rWatch] (limitOnly 0) = [rPush, rWatch] ∧
    filter_events [rPush, rWatch] (limitOnly (-1)) = [rPush] := by
  refine ⟨?_, (claim1_amended [rPush, rWatch] 0).2.1 rfl, ?_⟩
  · rw [(claim1_amended [rPush, rWatch] 1).1 (by omega)]; decide
  · rw [(claim1_amended [rPush, rWatch] (-1)).2.2 (by omega)]; decide

/-- C3 counterexample: with `maxResults = -2` on a three-element
sequence the result is the one-element prefix — the Python slice
`E[:-2]` — which is neither the empty sequence nor the whole
value-filtered sequence, so neither of the two behaviours the claim
allows ("treat as 0" / "no limit") is what the code does. -/
theorem claim3_counterexample :
    filter_events [rPush, rWatch, rFoo] (limitOnly (-2)) = [rPush] ∧
    [rPush] ≠ ([] : List EventRecord) ∧ [rPush] ≠ [rPush, rWatch, rFoo] := by
  refine ⟨rfl, by decide, by decide⟩

/-- C3 (amended): a negative `maxResults = N` does not crash (the
embedded `filter_events` is a total function); the result is the
value-filtered sequence with its last `min(|N|, length)` elements
dropped — Python slice-truncation semantics, not "treat as 0" and not
"no limit". -/
theorem claim3_amended (E : List EventRecord) (F : Filters) (N : Int)
    (hlim : F.limit = some N) (hneg : N < 0) :
    filter_events E F =
      (value_filtered E F).take ((value_filtered E F).length - (-N).toNat) := by
  simp only [filter_events, hlim, if_neg (by omega : ¬ N = 0), pySliceTo_eq_take,
    sliceBound, if_neg (by omega : ¬ (0:Int) ≤ N)]

/-- Witness for C3 (amended) at a concrete three-element sequence with
limit -2. -/
theorem claim3_witness :
    filter_events [rPush, rWatch, rFoo] (limitOnly (-2)) =
      (value_filtered [rPush, rWatch, rFoo] (limitOnly (-2))).take 1 := by
  rw [claim3_amended [rPush, rWatch, rFoo] (limitOnly (-2)) (-2) rfl (by omega)]; decide

theorem filter_self_idem (l : List EventRecord) (p : EventRecord → Bool) :
    (l.filter p).filter p = l.filter p := by
  rw [List.filter_filter]
  apply List.filter_congr
  intro a _
  exact Bool.and_self _

theorem take_filter_take (l : List EventRecord) (p : EventRecord → Bool) (k : Nat) :
    ((l.filter p).take k).filter p = (l.filter p).take k := by
  rw [List.filter_eq_self]
  intro a ha
  exact (List.mem_filter.mp (List.mem_of_mem_take ha)).2

/-- C4 counterexample: with a negative limit the slice truncation drops
the last element twice, so filtering twice differs from filtering once. -/
theorem claim4_counterexample :
    filter_events (filter_events [rPush, rWatch] (limitOnly (-1))) (limitOnly (-1)) ≠
      filter_events [rPush, rWatch] (limitOnly (-1)) := by
  decide

/-- C4 (amended): `filter` is idempotent for every filter specification
whose `maxResults` is absent, zero, or positive; idempotence fails only
for negative limits (the Python slice quirk). -/
theorem claim4_amended (E : List EventRecord) (F : Filters)
    (h : F.limit = none ∨ ∃ n, F.limit = some n ∧ 0 ≤ n) :
    filter_events (filter_events E F) F = filter_events E F := by
  rcases h with hnone | ⟨n, hsome, hnn⟩
  · simp only [filter_events, hnone, value_filtered_eq_filter]
    exact filter_self_idem E (survives F)
  · by_cases h0 : n = 0
    · subst h0
      simp only [filter_events, hsome, if_pos rfl, value_filtered_eq_filter]
      exact filter_self_idem E (survives F)
    · simp only [filter_events, hsome, if_neg h0, value_filtered_eq_filter,
        pySliceTo_eq_take, take_filter_take, sliceBound, if_pos hnn]
      rw [List.take_take]
      simp

/-- Witness for C4 (amended) at a concrete sequence and a positive
limit. -/
theorem claim4_witness :
    filter_events (filter_events [rPush, rWatch] (limitOnly 1)) (limitOnly 1) =
      filter_events [rPush, rWatch] (limitOnly 1) :=
  claim4_amended [rPush, rWatch] (limitOnly 1) (Or.inr ⟨1, rfl, by omega⟩)

/-- Propositional and boolean string equality tests agree. -/
theorem decide_eq_beq (s t : String) : decide (s = t) = (s == t) := by
  by_cases h : s = t <;> simp [h]

/-- Bridging the two phrasings of a truthiness-guarded constraint. -/
theorem if_empty_eq_or (t : String) (b : Bool) :
    (if t = "" then true else b) = (t == "" || b) := by
  by_cases ht : t = "" <;> simp [ht]

/-- The record predicate of claim C5 amended only where the
counterexample forces it: a present-but-*empty* category or repository
substring imposes no constraint (Python truthiness skips it); every
other present field constrains exactly as the claim says. -/
def survivesSpecAmended (filters : Filters) (e : EventRecord) : Bool :=
  (match filters.event_type with
   | none => true
   | some t => t == "" || e.type == some t) &&
  (match filters.repo with
   | none => true
   | some r => r == "" || containsSub (repoNameOrEmpty e).toLower r.toLower) &&
  dateOK filters e

/-- C5 counterexample: with the category field present but equal to the
empty string, a record whose `type` is `"PushEvent"` survives the
value-based filters (the empty string is falsy, so the constraint is
skipped) even though it does not satisfy the present constraint
(its category is not equal to `""`), contradicting the claim's "iff". -/
theorem claim5_counterexample :
    rPush ∈ filter_events [rPush] ⟨some "", none, none, none⟩ ∧
    survivesSpec ⟨some "", none, none, none⟩ rPush = false := by
  constructor
  · show rPush ∈ filter_events [rPush] ⟨some "", none, none, none⟩
    decide
  · decide

/-- C5 (amended): `filter_events` preserves the relative order of its
input (the result is a sublist), and a record survives the value-based
constraints iff it satisfies every present *non-empty* constraint
conjunctively: category equal to the tag (case-sensitive), lower-cased
repository name (absent defaulting to empty) containing the lower-cased
substring, and parsed timestamp ≥ the bound; absent fields — and
present-but-empty string fields, which are falsy — impose no
constraint. -/
theorem claim5_amended (E : List EventRecord) (F : Filters) :
    (filter_events E F).Sublist E ∧
    value_filtered E F = E.filter (survivesSpecAmended F) := by
  refine ⟨filter_events_sublist E F, ?_⟩
  rw [value_filtered_eq_filter]
  apply List.filter_congr
  intro a _
  obtain ⟨et, r, df, lim⟩ := F
  cases et <;> cases r <;> cases df <;>
    simp [survives, catOK, repoOK, dateOK, survivesSpecAmended, if_empty_eq_or, decide_eq_beq]

/-- C2: the Event Formatter crashes when the `category` field is absent
(the claim says it must not): `event.get('type')` is `None`, every
dispatch test fails, and the fallback arm calls `None.replace`, raising
`AttributeError` — modelled as `none`, not a degenerate string. -/
theorem claim2_eval : format_event rNoType false dtMin = none := by
  decide

/-- C8 counterexample: for the unrecognized category `"MyEventThing"`
the claim demands `"<category without trailing 'Event'> in x"`, i.e.
`"MyEventThing in x"` (there is no trailing `Event` to strip), but
`str.replace` removes *every* occurrence of `"Event"`, producing
`"MyThing in x"`. -/
theorem claim8_counterexample :
    format_event rOdd false dtMin = some "MyThing in x" ∧
    "MyThing in x" ≠ "MyEventThing in x" := by
  constructor
  · decide
  · decide

/-- C8 (amended): for every record whose category is a non-empty string
not in the recognized category table, `format_event` returns
`"<category with every occurrence of 'Event' removed> in <repository>"`
(repository defaulting to `"unknown repo"` when absent) — "every
occurrence removed", not just a trailing one. -/
theorem claim8_amended (e : EventRecord) (t : String) (now : DateTime)
    (htype : e.type = some t) (hne : t ≠ "")
    (hunrec : t ∉ ["PushEvent", "CreateEvent", "DeleteEvent", "IssuesEvent",
      "IssueCommentEvent", "WatchEvent", "ForkEvent", "PullRequestEvent",
      "PullRequestReviewEvent", "PullRequestReviewCommentEvent", "ReleaseEvent",
      "MemberEvent"]) :
    format_event e false now =
      some (strReplace t "Event" "" ++ " in " ++
        ((e.repo.getD ⟨none⟩).name.getD "unknown repo")) := by
  simp only [List.mem_cons, List.not_mem_nil, or_false, not_or] at hunrec
  obtain ⟨n1, n2, n3, n4, n5, n6, n7, n8, n9, n10, n11, n12⟩ := hunrec
  simp [format_event, event_description, htype, n1, n2, n3, n4, n5, n6, n7, n8, n9, n10,
    n11, n12]

/-- Witness for C8 (amended): the claim's own golden case, category
`"FooEvent"` on repo `"x"` formatting to `"Foo in x"`. -/
theorem claim8_witness : format_event rFoo false dtMin = some "Foo in x" := by
  rw [claim8_amended rFoo "FooEvent" dtMin rfl (by decide) (by decide)]
  decide

/-- The age template of claim C6: `"<N> <unit>(s) ago"` with the plural
`s` present iff `N ≠ 1`.  The unit string carries its leading space. -/
def agePhrase (n : Nat) (unit : String) : String :=
  toString n ++ unit ++ (if n = 1 then "" else "s") ++ " ago"

/-- The Relative Time Converter exactly as claim C6 describes it: tiers
on `diff` with each boundary belonging to the higher tier, and
`N = floor(diff / unitSeconds)`. -/
def relAgeSpec (diff : Int) : String :=
  if diff < 60 then "just now"
  else if diff < 3600 then agePhrase (diff.toNat / 60) " minute"
  else if diff < 86400 then agePhrase (diff.toNat / 3600) " hour"
  else if diff < 2592000 then agePhrase (diff.toNat / 86400) " day"
  else agePhrase (diff.toNat / 2592000) " month"

/-- C6: for every nonnegative difference `diff = now - timestamp` in
seconds, `get_time_ago` produces exactly the tiered string of the
claim: `"just now"` iff `diff < 60`, `"<N> minute(s) ago"` with
`N = floor(diff/60)` iff `60 ≤ diff < 3600`, and so on for hours, days
and months, with the plural `s` iff `N ≠ 1` and every boundary in the
higher tier. -/
theorem code_phrase (m : Nat) (u : String) :
    toString m ++ u ++ (if m ≠ 1 then "s" else "") ++ " ago" = agePhrase m u := by
  unfold agePhrase
  by_cases hm : m = 1 <;> simp [hm]

theorem claim6_tiers (diff : Int) (h : 0 ≤ diff) :
    get_time_ago diff = relAgeSpec diff := by
  have h60 : (diff / 60).toNat = diff.toNat / 60 := by omega
  have h3600 : (diff / 3600).toNat = diff.toNat / 3600 := by omega
  have h86400 : (diff / 86400).toNat = diff.toNat / 86400 := by omega
  have h2592000 : (diff / 2592000).toNat = diff.toNat / 2592000 := by omega
  by_cases h1 : diff < 60
  · simp only [get_time_ago, relAgeSpec, if_pos h1]
  · by_cases h2 : diff < 3600
    · simp only [get_time_ago, relAgeSpec, if_neg h1, if_pos h2]
      rw [h60]
      exact code_phrase (diff.toNat / 60) " minute"
    · by_cases h3 : diff < 86400
      · simp only [get_time_ago, relAgeSpec, if_neg h1, if_neg h2, if_pos h3]
        rw [h3600]
        exact code_phrase (diff.toNat / 3600) " hour"
      · by_cases h4 : diff < 2592000
        · simp only [get_time_ago, relAgeSpec, if_neg h1, if_neg h2, if_neg h3, if_pos h4]
          rw [h86400]
          exact code_phrase (diff.toNat / 86400) " day"
        · simp only [get_time_ago, relAgeSpec, if_neg h1, if_neg h2, if_neg h3, if_neg h4]
          rw [h2592000]
          exact code_phrase (diff.toNat / 2592000) " month"

/-- Witness for C6 at the boundary `diff = 60`, which lands in the
minute tier ("1 minute ago", not "just now"). -/
theorem claim6_witness :
    (0:Int) ≤ 60 ∧ get_time_ago 60 = relAgeSpec 60 ∧ relAgeSpec 60 = "1 minute ago" :=
  ⟨by decide, claim6_tiers 60 (by decide), by decide⟩

/-- C7 counterexample: `"2024-1-15T10:30:00Z"` is not of the exact form
`YYYY-MM-DDTHH:MM:SSZ` (one-digit month), yet CPython `strptime` parses
it, so `parse_event_date` returns the real 2024 timestamp — not the
minimum — and the record *survives* a date filter whose bound
(2024-01-01) is strictly above the minimum, contradicting both parts of
the claim. -/
theorem claim7_counterexample :
    parse_event_date rLenientDate = ⟨2024, 1, 15, 10, 30, 0⟩ ∧
    (⟨2024, 1, 15, 10, 30, 0⟩ : DateTime) ≠ dtMin ∧
    dtLt dtMin ⟨2024, 1, 1, 0, 0, 0⟩ = true ∧
    rLenientDate ∈
      filter_events [rLenientDate] ⟨none, none, some ⟨2024, 1, 1, 0, 0, 0⟩, none⟩ := by
  refine ⟨by decide, by decide, by decide, by decide⟩

/-- C7 (amended): a record whose `created_at` is missing or fails
`strptime` parsing — with CPython's leniency, so one-digit fields and
lowercase `t`/`z` *do* parse and are not covered — gets the minimum
timestamp from `parse_event_date` (the hypothesis covers the missing
field too: it defaults to `""`, which fails), and is therefore excluded
by every date filter whose bound is strictly above the minimum. -/
theorem claim7_sentinel (e : EventRecord)
    (hbad : parseTimestamp (e.created_at.getD "") = none) :
    parse_event_date e = dtMin ∧
    ∀ (E : List EventRecord) (F : Filters) (d : DateTime),
      F.date_from = some d → dtLt dtMin d = true → e ∉ filter_events E F := by
  have hmin : parse_event_date e = dtMin := by
    unfold parse_event_date
    rw [hbad]
  refine ⟨hmin, ?_⟩
  intro E F d hdf hlt hmem
  have hs := (mem_filter_events E F e hmem).2
  simp only [survives, Bool.and_eq_true] at hs
  have hdate : dateOK F e = true := hs.2
  simp only [dateOK, hdf, hmin] at hdate
  simp [dtLt, hdate] at hlt

/-- Witness for C7: a concrete record with unparsable `created_at`,
filtered against a 2024 bound. -/
theorem claim7_witness :
    parseTimestamp "not-a-date" = none ∧
    parse_event_date rBadDate = dtMin ∧
    rBadDate ∉ filter_events [rBadDate] ⟨none, none, some ⟨2024, 1, 1, 0, 0, 0⟩, none⟩ :=
  ⟨rfl, (claim7_sentinel rBadDate rfl).1,
   (claim7_sentinel rBadDate rfl).2 [rBadDate] ⟨none, none, some ⟨2024, 1, 1, 0, 0, 0⟩, none⟩
     ⟨2024, 1, 1, 0, 0, 0⟩ rfl (by decide)⟩

/-- C9: the exit-code claim fails on the same slip as C2.  A run with a
valid identifier, valid flags and a successful fetch is a "success" per
the claim and should exit 0, but if any displayed record lacks the
`type` key the formatter raises and the interpreter exits 1 (first
conjunct); an otherwise identical run whose record has a `type` exits 0
(second conjunct). -/
theorem claim9_eval :
    mainExit ["alice"] (.success [rNoType]) dtMin = 1 ∧
    mainExit ["alice"] (.success [rWatch]) dtMin = 0 := by
  constructor <;> decide

/-- `format_event` with the date shown is the bare description with the
relative-age suffix appended. -/
theorem format_event_true (e : EventRecord) (now : DateTime) :
    format_event e true now = (format_event e false now).map
      (fun s => s ++ " (" ++ get_time_ago (diffSeconds now (parse_event_date e)) ++ ")") := by
  unfold format_event
  cases event_description e <;> simp

/-- The displayed event lines exactly as claim C10 describes them: each
line is `"- "` plus the bare description, with the relative-age suffix
appended iff the minimum-date filter is present. -/
def claimLines (events : List EventRecord) (filters : Filters) (now : DateTime) :
    Option (List String) :=
  match events with
  | [] => some []
  | e :: rest =>
    match format_event e false now with
    | none => none
    | some s =>
      (claimLines rest filters now).map (fun ls =>
        ("- " ++ s ++
          (if filters.date_from.isSome then
            " (" ++ get_time_ago (diffSeconds now (parse_event_date e)) ++ ")"
          else "")) :: ls)

/-- C10: the per-event lines the CLI displays carry the appended
relative-age suffix iff a minimum-date filter is active
(`show_dates = filters.get('date_from') is not None`); with no date
filter each line is exactly the bare description. -/
theorem claim10_suffix (events : List EventRecord) (filters : Filters) (now : DateTime) :
    event_lines events filters now = claimLines events filters now := by
  induction events with
  | nil => rfl
  | cons e rest ih =>
    simp only [event_lines] at ih ⊢
    cases hb : filters.date_from.isSome
    · rw [hb] at ih
      simp only [print_loop, claimLines, hb]
      cases hf : format_event e false now
      · simp [hf]
      · simp [hf, ih, String.append_empty]
    · rw [hb] at ih
      simp only [print_loop, claimLines, hb, format_event_true]
      cases hf : format_event e false now
      · simp [hf]
      · simp [hf, ih, String.append_assoc]
